import Mathlib

/-
Shallow embedding of src/holodeck/environments.py (class HolodeckEnvironment).

The environment drives an external simulation engine across a per-tick
handshake.  The controller-side state that the Python object holds is embedded
as the structure `Holo.Env`; the public methods of `HolodeckEnvironment`
become functions `Env → ...` returning the updated environment, the list of
observable events produced by the call (engine handshakes and printed
warnings), and either a result or the raised Python exception.

Sensor buffers live in shared memory that the engine overwrites in place
each tick; this is embedded as an explicit heap (`List Buffer`) addressed by
`Nat` cells, so that copy mode versus reference mode of the state aggregator
is faithfully observable.  The engine itself (the other process), the
command-center flush and the agent classes live outside src/ and are modelled
from the spec where noted.
-/

namespace Holo

/-- Contents of one shared-memory sensor buffer (a numpy array in the source;
the claims only move whole buffers and compare single integer elements). -/
abbrev Buffer := List Int

/-- An action vector handed to an agent. -/
abbrev Action := List Rat

/-- A Python numeric argument: either an int or a non-int float.  The source
distinguishes the two with an isinstance check in `set_ticks_per_capture`. -/
inductive PyNum
| int : Int → PyNum
| float : Rat → PyNum
deriving Repr, DecidableEq

/-- The str() rendering of a Python number, used in printed warnings. -/
def pyStr : PyNum → String
| PyNum.int i => toString i
| PyNum.float q => toString q

/-- The commands of holodeck.command that environments.py constructs
(command.py itself is outside src/; each constructor mirrors the argument
list that environments.py passes). -/
inductive Command
| spawnAgent (loc : List Rat) (name : String) (agentType : String)
| rgbCameraRate (agentName : String) (ticksPerCapture : Int)
| debugDraw (kind : Nat) (a b color : List Rat) (thickness : Rat)
| teleportCmd (agentName : String) (loc rot : Option (List Rat))
| setStateCmd (agentName : String) (loc rot vel angvel : List Rat)
| teleportCamera (loc rot : List Rat)
| renderViewport (value : Bool)
| renderQuality (quality : Int)
| setSensorEnabledCmd (agentName sensorName : String) (enabled : Bool)
| custom (name : String) (numParams : List Rat) (stringParams : List String)
deriving Repr, DecidableEq

/-- Observable side effects of a call: one full engine handshake (recording
the command batch flushed to the engine and the ResetFlag value the engine
observes for that tick), or a printed warning. -/
inductive Event
| tickEv (flushed : List Command) (observedReset : Bool)
| printEv (msg : String)
deriving Repr, DecidableEq

/-- Is the event an engine handshake (an internal tick)? -/
def Event.isTick : Event → Bool
| Event.tickEv _ _ => true
| Event.printEv _ => false

/-- A raised Python exception: HolodeckException with its message, a dict
KeyError, or an AttributeError for a missing instance attribute. -/
inductive HErr
| holodeckException (msg : String)
| keyError (key : String)
| attributeError (attr : String)
deriving Repr, DecidableEq

/-- The controller-side record of one agent.  Modelled from the spec for the
parts that live in agents.py (outside src/): the agent caches its
ticks-per-capture setting, its control scheme and the pending action
recorded by `act` (applied at the next flush, last-write-wins). -/
structure Agent where
  name : String
  hasCamera : Bool
  ticksPerCapture : Int
  controlScheme : Int
  pendingAction : Option Action
deriving Repr, DecidableEq

/-- An AgentDefinition: name, type and the sensors the agent carries. -/
structure AgentDefn where
  name : String
  agentType : String
  sensors : List String
  hasCamera : Bool
deriving Repr, DecidableEq

/-- The `_state_dict` layout: agent name → (sensor name → shared-memory
address of that sensor's buffer). -/
abbrev StateMap := List (String × List (String × Nat))

/-- The 4-tuple `(state, reward, terminal, info)` that `_get_single_state`
returns; `info` is always Python None. -/
structure SingleState where
  state : List (String × Nat)
  reward : Option Int
  terminal : Option Bool
  info : Option Unit
deriving Repr, DecidableEq

/-- What `reset`/`step` return: the single-agent 4-tuple or the full
per-agent state mapping. -/
inductive RetState
| single : SingleState → RetState
| full : StateMap → RetState
deriving Repr, DecidableEq

/-- The state of one `HolodeckEnvironment` instance: the fields set up in
`__init__` that the public methods read and mutate.  `heap` is the shared
memory arena holding every sensor buffer; `numAgents` and `mainAgent` are
fixed when the constructor runs (`num_agents`, `_agent`). -/
structure Env where
  initialReset : Bool
  resetPtr : Bool
  commands : List Command
  agents : List Agent
  stateDict : StateMap
  heap : List Buffer
  copyState : Bool
  preStartSteps : Nat
  numAgents : Nat
  mainAgent : Option String
deriving Repr, DecidableEq

/-- Modelled from the spec: one engine simulation step as seen through shared
memory.  Given the flushed command batch, the ResetFlag it observed, a sensor
buffer's address and old contents, the engine produces the buffer's new
contents.  All theorems hold for every such engine behaviour. -/
abbrev Engine := List Command → Bool → Nat → Buffer → Buffer

/-- Dictionary lookup `self.agents[name]` (first agent with the name). -/
def lookupAgent (env : Env) (name : String) : Option Agent :=
  env.agents.find? (fun ag => ag.name == name)

/-- In-place update of the (first) agent registered under `name`, mirroring
mutation of the object stored in the `self.agents` dict. -/
def updateAgent (l : List Agent) (name : String) (f : Agent → Agent) : List Agent :=
  match l with
  | [] => []
  | ag :: rest => if ag.name == name then f ag :: rest else ag :: updateAgent rest name f

/-- Dictionary lookup `self._state_dict[name]` (empty if absent). -/
def lookupSD (env : Env) (name : String) : List (String × Nat) :=
  match env.stateDict.find? (fun p => p.1 == name) with
  | some p => p.2
  | none => []

/-- Read the buffer stored at a shared-memory address. -/
def readBuf (heap : List Buffer) (ad : Nat) : Buffer := heap.getD ad []

/-- Dereference an agent's sensor→address map into sensor→contents. -/
def readSensors (heap : List Buffer) (ss : List (String × Nat)) : List (String × Buffer) :=
  ss.map (fun p => (p.1, readBuf heap p.2))

/-- Dereference a full state mapping into agent→sensor→contents. -/
def readStateMap (heap : List Buffer) (sm : StateMap) : List (String × List (String × Buffer)) :=
  sm.map (fun p => (p.1, readSensors heap p.2))

/-- The addresses appearing in a sensor map. -/
def sensorsAddrs (ss : List (String × Nat)) : List Nat := ss.map Prod.snd

/-- The addresses appearing in a full state mapping. -/
def smAddrs (sm : StateMap) : List Nat := (sm.map (fun p => sensorsAddrs p.2)).flatten

/-- All shared sensor-buffer addresses of the environment (the cells the
engine overwrites in place on every tick). -/
def stateDictAddrs (env : Env) : List Nat := smAddrs env.stateDict

/-- The addresses appearing in a returned state structure. -/
def retAddrs : RetState → List Nat
| RetState.single s => sensorsAddrs s.state
| RetState.full sm => smAddrs sm

/-- Dereference a returned state structure (either shape) against a heap. -/
def readRet (heap : List Buffer) :
    RetState → List (String × Buffer) ⊕ List (String × List (String × Buffer))
| RetState.single s => Sum.inl (readSensors heap s.state)
| RetState.full sm => Sum.inr (readStateMap heap sm)

/-- Substring test on character lists (Python's `in` on strings). -/
def hasSub (pat : List Char) : List Char → Bool
| [] => pat.isEmpty
| c :: rest => pat.isPrefixOf (c :: rest) || hasSub pat rest

/-- Python's `"Task" in sensor` check from `_get_single_state`. -/
def strContainsTask (s : String) : Bool := hasSub "Task".toList s.toList

/-- The last sensor of a state dict whose identifier contains "Task"
(the sensor the reward/terminal extraction ends up using). -/
def lastTaskSensor : List (String × Nat) → Option (String × Nat)
| [] => none
| p :: rest =>
  match lastTaskSensor rest with
  | some q => some q
  | none => if strContainsTask p.1 then some p else none

/-- The (reward, terminal) pair read off one Task sensor: reward is element 0
of its buffer, terminal is (element 1 == 1). -/
def taskVal (heap : List Buffer) (p : String × Nat) : Option Int × Option Bool :=
  (some ((readBuf heap p.2).getD 0 0), some (((readBuf heap p.2).getD 1 0) == 1))

/-- The reward/terminal scan of `_get_single_state`: iterate over the main
agent's sensors in order, overwriting (reward, terminal) at every sensor whose
name contains "Task". -/
def taskScan (heap : List Buffer) (ss : List (String × Nat)) : Option Int × Option Bool :=
  ss.foldl (fun acc p => if strContainsTask p.1 then taskVal heap p else acc) (none, none)

/-- `_create_copy` on one agent's sensor dict: np.copy every buffer into a
freshly allocated cell (appended at the end of the heap), returning the new
heap and the copy's sensor→address map. -/
def copyBuffers (heap : List Buffer) : List (String × Nat) → List Buffer × List (String × Nat)
| [] => (heap, [])
| p :: rest =>
  let r := copyBuffers (heap ++ [heap.getD p.2 []]) rest
  (r.1, (p.1, heap.length) :: r.2)

/-- `_create_copy` on the full state dict: deep-copy every agent's buffers. -/
def copyStateDict (heap : List Buffer) : StateMap → List Buffer × StateMap
| [] => (heap, [])
| p :: rest =>
  let r1 := copyBuffers heap p.2
  let r2 := copyStateDict r1.1 rest
  (r2.1, (p.1, r1.2) :: r2.2)

/-- `_get_full_state`: deep copy in copy mode, direct shared-memory views in
reference mode. -/
def get_full_state (env : Env) : Env × StateMap :=
  if env.copyState then
    let r := copyStateDict env.heap env.stateDict
    ({env with heap := r.1}, r.2)
  else (env, env.stateDict)

/-- `_get_single_state`: scan the main agent's sensors for the Task sensor
(reward = element 0, terminal = element 1 == 1, both None if no sensor name
contains "Task"), then return the 4-tuple with the state copied or aliased
according to the construction-time mode. -/
def get_single_state (env : Env) : Env × SingleState :=
  let ss := lookupSD env (env.mainAgent.getD "")
  let rt := taskScan env.heap ss
  if env.copyState then
    let r := copyBuffers env.heap ss
    ({env with heap := r.1}, ⟨r.2, rt.1, rt.2, none⟩)
  else (env, ⟨ss, rt.1, rt.2, none⟩)

/-- Modelled from the spec: the engine's half of one tick.  `handle_buffer`
(CommandCenter, in command.py outside src/) hands the whole queue to the
engine in enqueue order and clears it; the release/acquire handshake
(holodeckclient.py outside src/) lets the engine run one step, during which
it overwrites every shared sensor buffer and consumes the ResetFlag (reading
it to decide whether to discard episodic state, then clearing it). -/
def engineWriteAll (eng : Engine) (cmds : List Command) (rf : Bool) (addrs : List Nat)
    (heap : List Buffer) : List Buffer :=
  match addrs with
  | [] => heap
  | a :: rest => engineWriteAll eng cmds rf rest (heap.set a (eng cmds rf a (heap.getD a [])))

/-- One flush + handshake cycle: the command queue is flushed to the engine
and cleared, the engine observes the ResetFlag, overwrites the shared sensor
buffers and clears the flag.  Returns the handshake event. -/
def doTick (eng : Engine) (env : Env) : Env × Event :=
  ({env with
      commands := [],
      resetPtr := false,
      heap := engineWriteAll eng env.commands env.resetPtr (stateDictAddrs env) env.heap},
   Event.tickEv env.commands env.resetPtr)

/-- `tick()`: refuse with the ordering error before the first reset, else
flush + handshake and return the full state. -/
def tick (eng : Engine) (env : Env) : Env × List Event × Except HErr StateMap :=
  if env.initialReset = false then
    (env, [], Except.error (HErr.holodeckException "You must call .reset() before .tick()"))
  else
    let r := doTick eng env
    let r2 := get_full_state r.1
    (r2.1, [r.2], Except.ok r2.2)

/-- Modelled from the spec: Agent.act (agents.py, outside src/) records the
pending action of the agent registered under the given name, to be applied
at the next flush; a later act overwrites it (last-write-wins). -/
def agentAct (env : Env) (name : String) (action : Action) : Env :=
  {env with agents := updateAgent env.agents name (fun ag => {ag with pendingAction := some action})}

/-- `step(action)`: refuse with the ordering error before the first reset;
otherwise record the action on the main agent via Agent.act, flush +
handshake, and return the single-agent 4-tuple — or the full state when the
environment has no main agent. -/
def step (eng : Engine) (env : Env) (action : Action) : Env × List Event × Except HErr RetState :=
  if env.initialReset = false then
    (env, [], Except.error (HErr.holodeckException "You must call .reset() before .step()"))
  else
    match env.mainAgent with
    | some m =>
      let r := doTick eng (agentAct env m action)
      let r2 := get_single_state r.1
      (r2.1, [r.2], Except.ok (RetState.single r2.2))
    | none =>
      let r := doTick eng env
      let r2 := get_full_state r.1
      (r2.1, [r.2], Except.ok (RetState.full r2.2))

/-- `act(agent_name, action)`: `self.agents[agent_name]` raises KeyError for
an unknown name; otherwise Agent.act records the pending action to be
applied at the next flush.  No tick happens. -/
def act (env : Env) (agent_name : String) (action : Action) :
    Env × List Event × Except HErr Unit :=
  match lookupAgent env agent_name with
  | none => (env, [], Except.error (HErr.keyError agent_name))
  | some _ => (agentAct env agent_name action, [], Except.ok ())

/-- `_enqueue_command` via the CommandCenter: FIFO append. -/
def enqueueCommand (env : Env) (c : Command) : Env :=
  {env with commands := env.commands ++ [c]}

/-- `teleport(agent_name, location, rotation)`: `self.agents[agent_name]`
(KeyError if unknown), then Agent.teleport — modelled from the spec:
"enqueue an immediate positional/kinematic override" — then `self.tick()`.
The Python method has no return statement, so the tick's state is discarded
and the call returns None (`Except.ok none`). -/
def teleport (eng : Engine) (env : Env) (agent_name : String)
    (loc rot : Option (List Rat)) : Env × List Event × Except HErr (Option StateMap) :=
  match lookupAgent env agent_name with
  | none => (env, [], Except.error (HErr.keyError agent_name))
  | some _ =>
    let env1 := enqueueCommand env (Command.teleportCmd agent_name loc rot)
    let r := tick eng env1
    match r.2.2 with
    | Except.ok _ => (r.1, r.2.1, Except.ok none)
    | Except.error e => (r.1, r.2.1, Except.error e)

/-- `set_state(agent_name, location, rotation, velocity, angular_velocity)`:
like `teleport`, but `return self.tick()` hands back the post-tick state. -/
def set_state (eng : Engine) (env : Env) (agent_name : String)
    (loc rot vel angvel : List Rat) : Env × List Event × Except HErr StateMap :=
  match lookupAgent env agent_name with
  | none => (env, [], Except.error (HErr.keyError agent_name))
  | some _ =>
    let env1 := enqueueCommand env (Command.setStateCmd agent_name loc rot vel angvel)
    tick eng env1

/-- Modelled from the spec: AgentFactory.build_agent (agents.py, outside
src/) builds the agent record with its default capture rate of one tick per
capture and no pending action, and links its sensors to freshly allocated
shared-memory buffers. -/
def buildAgent (d : AgentDefn) : Agent :=
  {name := d.name, hasCamera := d.hasCamera, ticksPerCapture := 1,
   controlScheme := 0, pendingAction := none}

/-- Allocate one fresh shared buffer per sensor at the end of the heap. -/
def allocSensors (heap : List Buffer) : List String → List Buffer × List (String × Nat)
| [] => (heap, [])
| s :: rest =>
  let r := allocSensors (heap ++ [[]]) rest
  (r.1, (s, heap.length) :: r.2)

/-- `_add_agents` on a single definition: a duplicate name prints
"Error: agent name duplicate." and changes nothing; otherwise the built agent
and its state-dict entry are appended. -/
def addAgent (env : Env) (d : AgentDefn) : Env × List Event :=
  if (lookupAgent env d.name).isSome then
    (env, [Event.printEv "Error: agent name duplicate."])
  else
    let r := allocSensors env.heap d.sensors
    ({env with
        agents := env.agents ++ [buildAgent d],
        stateDict := env.stateDict ++ [(d.name, r.2)],
        heap := r.1}, [])

/-- `_add_agents` on a list of definitions. -/
def addAgentsList (env : Env) : List AgentDefn → Env × List Event
| [] => (env, [])
| d :: rest =>
  let r := addAgent env d
  let r2 := addAgentsList r.1 rest
  (r2.1, r.2 ++ r2.2)

/-- `spawn_agent(agent_definition, location)`: register the agent locally via
`_add_agents`, enqueue the SpawnAgentCommand (always, even for a rejected
duplicate), and adopt the agent as main agent when there was none. -/
def spawn_agent (env : Env) (d : AgentDefn) (loc : List Rat) : Env × List Event :=
  let r := addAgent env d
  let e2 := enqueueCommand r.1 (Command.spawnAgent loc d.name d.agentType)
  let e3 := if e2.mainAgent.isNone then {e2 with mainAgent := some d.name} else e2
  (e3, r.2)

/-- `set_ticks_per_capture(agent_name, ticks_per_capture)`: a value that is
not a Python int, or is below 1, prints a warning and does nothing; an
unknown agent name prints a warning and does nothing; otherwise the agent's
cached rate is updated and one RGBCameraRateCommand is enqueued. -/
def set_ticks_per_capture (env : Env) (agent_name : String) (tpc : PyNum) :
    Env × List Event × Except HErr Unit :=
  match tpc with
  | PyNum.float _ =>
    (env, [Event.printEv ("Ticks per capture value " ++ pyStr tpc ++ " invalid")], Except.ok ())
  | PyNum.int i =>
    if i < 1 then
      (env, [Event.printEv ("Ticks per capture value " ++ pyStr tpc ++ " invalid")], Except.ok ())
    else
      match lookupAgent env agent_name with
      | none => (env, [Event.printEv ("No such agent " ++ agent_name)], Except.ok ())
      | some _ =>
        ({env with
            agents := updateAgent env.agents agent_name (fun ag => {ag with ticksPerCapture := i}),
            commands := env.commands ++ [Command.rgbCameraRate agent_name i]},
         [], Except.ok ())

/-- The `pre_start_steps + 1` settling ticks inside `reset` (each one a full
`self.tick()` whose returned state is discarded). -/
def resetTicks (eng : Engine) (env : Env) : Nat → Env × List Event
| 0 => (env, [])
| n + 1 =>
  let r := tick eng env
  let r2 := resetTicks eng r.1 n
  (r2.1, r.2.1 ++ r2.2)

/-- The loop at the end of `reset`: for every agent that has a camera,
re-apply its cached ticks-per-capture setting through
`set_ticks_per_capture`. -/
def reapplyCaptures (env : Env) : List String → Env × List Event
| [] => (env, [])
| n :: rest =>
  match lookupAgent env n with
  | some ag =>
    if ag.hasCamera then
      let r := set_ticks_per_capture env n (PyNum.int ag.ticksPerCapture)
      let r2 := reapplyCaptures r.1 rest
      (r2.1, r.2.1 ++ r2.2)
    else reapplyCaptures env rest
  | none => reapplyCaptures env rest

/-- The batch of RGBCameraRateCommands that the capture-rate loop of `reset`
enqueues when it walks the given agent names over the given agents dict. -/
def rgbCmds (agents : List Agent) : List String → List Command
| [] => []
| n :: rest =>
  match agents.find? (fun ag => ag.name == n) with
  | some ag =>
    if ag.hasCamera then Command.rgbCameraRate n ag.ticksPerCapture :: rgbCmds agents rest
    else rgbCmds agents rest
  | none => rgbCmds agents rest

/-- `reset()`: mark the environment initialized, raise the ResetFlag, clear
the command queue, run `pre_start_steps + 1` settling ticks, re-apply the
camera capture rates, and return the default aggregated state (the
single-agent 4-tuple when `num_agents == 1` at construction, else the full
mapping). -/
def reset (eng : Engine) (env : Env) : Env × List Event × RetState :=
  let env1 := {env with initialReset := true, resetPtr := true, commands := []}
  let r1 := resetTicks eng env1 (env1.preStartSteps + 1)
  let r2 := reapplyCaptures r1.1 (r1.1.agents.map Agent.name)
  if r2.1.numAgents == 1 then
    let r3 := get_single_state r2.1
    (r3.1, r1.2 ++ r2.2, RetState.single r3.2)
  else
    let r3 := get_full_state r2.1
    (r3.1, r1.2 ++ r2.2, RetState.full r3.2)

/-- `send_world_command(name, num_params, string_params)`: enqueue exactly
one CustomCommand. -/
def send_world_command (env : Env) (name : String) (numParams : List Rat)
    (stringParams : List String) : Env :=
  enqueueCommand env (Command.custom name numParams stringParams)

/-- `set_fog_density(density)`: densities outside [0, 1] raise a
HolodeckException; otherwise exactly one SetFogDensity custom command with
numeric parameter list [density] is enqueued. -/
def set_fog_density (env : Env) (density : Rat) : Env × List Event × Except HErr Unit :=
  if density < 0 ∨ density > 1 then
    (env, [], Except.error (HErr.holodeckException "Fog density should be between 0 and 1"))
  else
    (send_world_command env "SetFogDensity" [density] [], [], Except.ok ())

/-- `set_day_time(hour)`: enqueue SetHour with the hour reduced mod 24. -/
def set_day_time (env : Env) (hour : Int) : Env :=
  send_world_command env "SetHour" [((hour % 24 : Int) : Rat)] []

/-- `start_day_cycle(day_length)`: non-positive lengths raise a
HolodeckException; otherwise one SetDayCycle command is enqueued. -/
def start_day_cycle (env : Env) (day_length : Int) : Env × List Event × Except HErr Unit :=
  if day_length ≤ 0 then
    (env, [], Except.error (HErr.holodeckException "The given day length should be between above 0!"))
  else
    (send_world_command env "SetDayCycle" [1, (day_length : Rat)] [], [], Except.ok ())

/-- `stop_day_cycle()`: enqueue SetDayCycle with parameters [0, -1]. -/
def stop_day_cycle (env : Env) : Env :=
  send_world_command env "SetDayCycle" [0, -1] []

/-- Python str.lower, embedded over the character list of the string. -/
def strToLower (s : String) : String := String.mk (s.data.map Char.toLower)

/-- `set_weather(weather_type)`: anything whose lower-casing is neither
"rain" nor "cloudy" raises a HolodeckException; otherwise one SetWeather
command is enqueued. -/
def set_weather (env : Env) (weather_type : String) : Env × List Event × Except HErr Unit :=
  if (["rain", "cloudy"].contains (strToLower weather_type)) = false then
    (env, [], Except.error (HErr.holodeckException ("Invalid weather type " ++ weather_type)))
  else
    (send_world_command env "SetWeather" [] [weather_type], [], Except.ok ())

/-- `set_control_scheme(agent_name, control_scheme)`: an unknown agent name
prints a warning and does nothing; otherwise the agent's control scheme is
stored (Agent.set_control_scheme, modelled from the spec).  No command is
enqueued and nothing is raised. -/
def set_control_scheme (env : Env) (agent_name : String) (control_scheme : Int) :
    Env × List Event × Except HErr Unit :=
  match lookupAgent env agent_name with
  | none => (env, [Event.printEv ("No such agent " ++ agent_name)], Except.ok ())
  | some _ =>
    let ags := updateAgent env.agents agent_name (fun ag => {ag with controlScheme := control_scheme})
    ({env with agents := ags}, [], Except.ok ())

/-- `set_sensor_enabled(agent_name, sensor_name, enabled)`: the method's
first statement evaluates `self._sensor_map`, an attribute that no code path
in the class ever assigns (the constructor sets only `agents` and
`_state_dict`), so every call raises AttributeError before the membership
test runs. -/
def set_sensor_enabled (env : Env) (agent_name sensor_name : String) (enabled : Bool) :
    Env × List Event × Except HErr Unit :=
  (env, [], Except.error (HErr.attributeError "_sensor_map"))

/-- The empty environment the constructor starts from. -/
def emptyEnv (pre : Nat) (cs : Bool) : Env :=
  {initialReset := false, resetPtr := false, commands := [], agents := [],
   stateDict := [], heap := [], copyState := cs, preStartSteps := pre,
   numAgents := 0, mainAgent := none}

/-- `__init__`: clear the ResetFlag, register the pre-existing agents, fix
`num_agents` and the main agent (the agent named by the first definition)
for the lifetime of the instance, and leave `_initial_reset` false. -/
def mkEnv (defs : List AgentDefn) (pre : Nat) (cs : Bool) : Env × List Event :=
  let r := addAgentsList (emptyEnv pre cs) defs
  let e := r.1
  ({e with
      numAgents := e.agents.length,
      mainAgent := if 0 < e.agents.length then defs.head?.map AgentDefn.name else none},
   r.2)

/-! Concrete fixtures used to evaluate the embedding at explicit inputs. -/

/-- An engine behaviour that leaves every sensor buffer unchanged. -/
def engNil : Engine := fun _ _ _ b => b

/-- An engine behaviour that adds 10 to every element of every buffer. -/
def engBump : Engine := fun _ _ _ b => b.map (fun x => x + 10)

/-- A camera-less agent named "a". -/
def agentA : Agent :=
  {name := "a", hasCamera := false, ticksPerCapture := 1, controlScheme := 0,
   pendingAction := none}

/-- A camera-carrying agent named "cam" with capture rate 3. -/
def agentCam : Agent :=
  {name := "cam", hasCamera := true, ticksPerCapture := 3, controlScheme := 0,
   pendingAction := none}

/-- An initialized single-agent environment in copy mode whose agent has a
location sensor and a Task sensor. -/
def envBase : Env :=
  {initialReset := true, resetPtr := false, commands := [], agents := [agentA],
   stateDict := [("a", [("LocationSensor", 0), ("TaskSensor", 1)])],
   heap := [[4, 5], [7, 1]], copyState := true, preStartSteps := 0,
   numAgents := 1, mainAgent := some "a"}

/-- The same environment before its first `reset`. -/
def envUninit : Env := {envBase with initialReset := false}

/-- A single-agent environment whose agent has a camera (reference mode). -/
def envCam : Env :=
  {initialReset := false, resetPtr := false, commands := [], agents := [agentCam],
   stateDict := [("cam", [("RGBCamera", 0)])], heap := [[2, 2]], copyState := false,
   preStartSteps := 0, numAgents := 1, mainAgent := some "cam"}

/-- The duplicate of agent "a" as an AgentDefinition (for duplicate
registration scenarios). -/
def defnA : AgentDefn :=
  {name := "a", agentType := "SphereRobot", sensors := ["LocationSensor"],
   hasCamera := false}

/-! Helper lemmas. -/

/-- Updating an agent through the dict preserves the looked-up entry when the
update preserves names. -/
theorem lookupAgent_update (l : List Agent) (n : String) (f : Agent → Agent) (ag : Agent)
    (hf : ∀ b, (f b).name = b.name)
    (h : l.find? (fun a => a.name == n) = some ag) :
    (updateAgent l n f).find? (fun a => a.name == n) = some (f ag) := by
  induction l with
  | nil => simp [List.find?] at h
  | cons a rest ih =>
    cases hn : (a.name == n) with
    | true =>
      simp only [List.find?, hn] at h
      obtain rfl : a = ag := by injection h
      have hfn : ((f a).name == n) = true := by rw [hf a]; exact hn
      simp [updateAgent, hn, List.find?, hfn]
    | false =>
      simp only [List.find?, hn] at h
      simp only [updateAgent, hn, Bool.false_eq_true, if_false]
      simp only [List.find?, hn]
      exact ih h

/-- A name that fails dict lookup is not among the registered names. -/
theorem not_mem_names_of_lookup_none (env : Env) (n : String)
    (h : lookupAgent env n = none) : n ∉ env.agents.map Agent.name := by
  intro hmem
  obtain ⟨ag, hag, hname⟩ := List.mem_map.mp hmem
  have := List.find?_eq_none.mp h ag hag
  simp [hname] at this

/-- The fold of the reward/terminal scan keeps the value of the last Task
sensor, whatever the accumulator. -/
theorem foldl_taskScan (heap : List Buffer) :
    ∀ (ss : List (String × Nat)) (acc : Option Int × Option Bool),
    ss.foldl (fun acc p => if strContainsTask p.1 then taskVal heap p else acc) acc
      = match lastTaskSensor ss with
        | some p => taskVal heap p
        | none => acc := by
  intro ss
  induction ss with
  | nil => intro acc; simp [lastTaskSensor]
  | cons p rest ih =>
    intro acc
    simp only [List.foldl_cons, lastTaskSensor]
    rw [ih]
    cases h : lastTaskSensor rest with
    | some q => simp
    | none => by_cases hc : strContainsTask p.1 <;> simp [hc]

/-- The reward/terminal scan evaluates the last Task sensor. -/
theorem taskScan_eq_lastTask (heap : List Buffer) (ss : List (String × Nat)) :
    taskScan heap ss
      = match lastTaskSensor ss with
        | some p => taskVal heap p
        | none => (none, none) :=
  foldl_taskScan heap ss (none, none)

/-! Claim theorems. -/

/-- C1: on an environment on which reset() has never been called, both
step(action) and tick() fail with the ordering-violation HolodeckException
telling the caller to call reset first, perform no handshake, print nothing,
and return the environment completely unchanged (agents, command queue and
reset flag included). -/
theorem C1 (eng : Engine) (env : Env) (a : Action) (h : env.initialReset = false) :
    step eng env a =
      (env, [], Except.error (HErr.holodeckException "You must call .reset() before .step()"))
    ∧ tick eng env =
      (env, [], Except.error (HErr.holodeckException "You must call .reset() before .tick()")) := by
  constructor <;> simp [step, tick, h]

/-- Witness for C1 at the concrete uninitialized environment. -/
theorem C1_witness :
    envUninit.initialReset = false
    ∧ (step engNil envUninit [] =
        (envUninit, [],
         Except.error (HErr.holodeckException "You must call .reset() before .step()"))
      ∧ tick engNil envUninit =
        (envUninit, [],
         Except.error (HErr.holodeckException "You must call .reset() before .tick()"))) :=
  ⟨rfl, C1 engNil envUninit [] rfl⟩

/-- C7: set_fog_density raises the validation HolodeckException and enqueues
nothing for a density outside [0, 1], and for a density inside [0, 1] it
enqueues exactly one command whose numeric parameter list is [density]. -/
theorem C7 (env : Env) (d : Rat) :
    ((d < 0 ∨ 1 < d) →
      set_fog_density env d =
        (env, [], Except.error (HErr.holodeckException "Fog density should be between 0 and 1")))
    ∧ (0 ≤ d → d ≤ 1 →
      set_fog_density env d =
        ({env with commands := env.commands ++ [Command.custom "SetFogDensity" [d] []]},
         [], Except.ok ())) := by
  constructor
  · intro h
    simp only [set_fog_density]
    rw [if_pos h]
  · intro h0 h1
    have hno : ¬ (d < 0 ∨ d > 1) := by
      push_neg
      exact ⟨h0, h1⟩
    simp only [set_fog_density]
    rw [if_neg hno]
    simp [send_world_command, enqueueCommand]

/-- Witness for C7 at densities -1/10 (rejected) and 1/2 (enqueued). -/
theorem C7_witness :
    (((-1 : Rat)/10 < 0 ∨ 1 < (-1 : Rat)/10)
      ∧ set_fog_density envBase (-1/10) =
          (envBase, [],
           Except.error (HErr.holodeckException "Fog density should be between 0 and 1")))
    ∧ ((0 : Rat) ≤ 1/2 ∧ (1 : Rat)/2 ≤ 1
      ∧ set_fog_density envBase (1/2) =
          ({envBase with
              commands := envBase.commands ++ [Command.custom "SetFogDensity" [1/2] []]},
           [], Except.ok ())) :=
  ⟨⟨by norm_num, (C7 envBase (-1/10)).1 (by norm_num)⟩,
   by norm_num, by norm_num, (C7 envBase (1/2)).2 (by norm_num) (by norm_num)⟩

/-- C8: evaluated on a concrete environment, the soft setters behave as the
claim says for set_ticks_per_capture (non-integer, non-positive and
unknown-agent inputs all print a warning and change nothing, raising nothing
and enqueueing nothing) and for set_control_scheme (unknown agent prints and
skips), while the fog/day/weather setters raise hard HolodeckExceptions on
invalid input; but every call to set_sensor_enabled raises AttributeError
(self._sensor_map is never assigned in the class), instead of the claimed
warn-and-skip. -/
theorem C8 :
    set_ticks_per_capture envBase "a" (PyNum.float (1/2)) =
      (envBase,
       [Event.printEv ("Ticks per capture value " ++ pyStr (PyNum.float (1/2)) ++ " invalid")],
       Except.ok ())
    ∧ set_ticks_per_capture envBase "a" (PyNum.int 0) =
      (envBase,
       [Event.printEv ("Ticks per capture value " ++ pyStr (PyNum.int 0) ++ " invalid")],
       Except.ok ())
    ∧ set_ticks_per_capture envBase "zz" (PyNum.int 2) =
      (envBase, [Event.printEv "No such agent zz"], Except.ok ())
    ∧ set_control_scheme envBase "zz" 1 =
      (envBase, [Event.printEv "No such agent zz"], Except.ok ())
    ∧ set_sensor_enabled envBase "zz" "RGBCamera" true =
      (envBase, [], Except.error (HErr.attributeError "_sensor_map"))
    ∧ (set_fog_density envBase (-1/10)).2.2 =
      Except.error (HErr.holodeckException "Fog density should be between 0 and 1")
    ∧ (start_day_cycle envBase 0).2.2 =
      Except.error (HErr.holodeckException "The given day length should be between above 0!")
    ∧ (set_weather envBase "snow").2.2 =
      Except.error (HErr.holodeckException "Invalid weather type snow") := by
  refine ⟨rfl, rfl, rfl, rfl, rfl, ?_, rfl, rfl⟩
  have : ((-1 : Rat)/10 < 0 ∨ (-1 : Rat)/10 > 1) := Or.inl (by norm_num)
  simp only [set_fog_density]
  rw [if_pos this]

/-- C10: act(agent_name, action) raises KeyError immediately on an unknown
agent name (no event, no state change); on a registered agent it records the
action as that agent's pending action (to be applied at the next flush) and
performs no tick and no handshake. -/
theorem C10 (env : Env) (agent_name : String) (action : Action) :
    (lookupAgent env agent_name = none →
      act env agent_name action = (env, [], Except.error (HErr.keyError agent_name)))
    ∧ (∀ ag, lookupAgent env agent_name = some ag →
      act env agent_name action = (agentAct env agent_name action, [], Except.ok ())
      ∧ lookupAgent (act env agent_name action).1 agent_name =
          some {ag with pendingAction := some action}) := by
  constructor
  · intro h
    simp [act, h]
  · intro ag h
    have heq : act env agent_name action = (agentAct env agent_name action, [], Except.ok ()) := by
      simp [act, h]
    refine ⟨heq, ?_⟩
    rw [heq]
    exact lookupAgent_update env.agents agent_name _ ag (fun b => rfl) h

/-- Witness for C10: the unknown name "zz" raises KeyError and the registered
name "a" gets its pending action recorded. -/
theorem C10_witness :
    lookupAgent envBase "zz" = none
    ∧ lookupAgent envBase "a" = some agentA
    ∧ act envBase "zz" [1] = (envBase, [], Except.error (HErr.keyError "zz"))
    ∧ (act envBase "a" [1] = (agentAct envBase "a" [1], [], Except.ok ())
      ∧ lookupAgent (act envBase "a" [1]).1 "a" =
          some {agentA with pendingAction := some [1]}) :=
  ⟨rfl, rfl, (C10 envBase "zz" [1]).1 rfl, (C10 envBase "a" [1]).2 agentA rfl⟩

/-- spawn_agent changes only the command queue and possibly the main agent
on top of what _add_agents does: agents, state dict and printed events agree
with those of _add_agents. -/
theorem spawn_agent_proj (env : Env) (d : AgentDefn) (loc : List Rat) :
    (spawn_agent env d loc).1.agents = (addAgent env d).1.agents
    ∧ (spawn_agent env d loc).1.stateDict = (addAgent env d).1.stateDict
    ∧ (spawn_agent env d loc).2 = (addAgent env d).2 := by
  by_cases hm : (addAgent env d).1.mainAgent = none <;>
    simp [spawn_agent, enqueueCommand, hm]

/-- C9: registered agent names stay unique under both _add_agents and
spawn_agent, and a duplicate registration is reported with the printed error
while the agents dict and the state dict keep their existing entries
untouched. -/
theorem C9 (env : Env) (d : AgentDefn) (loc : List Rat)
    (hn : (env.agents.map Agent.name).Nodup) :
    ((addAgent env d).1.agents.map Agent.name).Nodup
    ∧ ((spawn_agent env d loc).1.agents.map Agent.name).Nodup
    ∧ ((lookupAgent env d.name).isSome →
        addAgent env d = (env, [Event.printEv "Error: agent name duplicate."])
        ∧ (spawn_agent env d loc).1.agents = env.agents
        ∧ (spawn_agent env d loc).1.stateDict = env.stateDict
        ∧ (spawn_agent env d loc).2 = [Event.printEv "Error: agent name duplicate."]) := by
  obtain ⟨hsa, hss, hse⟩ := spawn_agent_proj env d loc
  by_cases hdup : (lookupAgent env d.name).isSome
  · have hadd : addAgent env d = (env, [Event.printEv "Error: agent name duplicate."]) := by
      simp [addAgent, hdup]
    refine ⟨?_, ?_, fun _ => ⟨hadd, ?_, ?_, ?_⟩⟩
    · rw [hadd]; exact hn
    · rw [hsa, hadd]; exact hn
    · rw [hsa, hadd]
    · rw [hss, hadd]
    · rw [hse, hadd]
  · have hnone : lookupAgent env d.name = none := by
      cases h : lookupAgent env d.name
      · rfl
      · rw [h] at hdup; simp at hdup
    have hmem := not_mem_names_of_lookup_none env d.name hnone
    have hadd : (addAgent env d).1.agents = env.agents ++ [buildAgent d] := by
      simp [addAgent, hnone]
    have hnodup : ((env.agents ++ [buildAgent d]).map Agent.name).Nodup := by
      rw [List.map_append]
      rw [List.nodup_append]
      refine ⟨hn, by simp, ?_⟩
      intro x hx hx2
      simp [buildAgent] at hx2
      rw [hx2] at hx
      exact hmem hx
    refine ⟨?_, ?_, fun h => absurd h hdup⟩
    · rw [hadd]
      exact hnodup
    · rw [hsa, hadd]
      exact hnodup

/-- Witness for C9: registering the duplicate definition of agent "a" on the
concrete environment is rejected and leaves the registry untouched. -/
theorem C9_witness :
    (envBase.agents.map Agent.name).Nodup
    ∧ (((addAgent envBase defnA).1.agents.map Agent.name).Nodup
      ∧ ((spawn_agent envBase defnA [0, 0, 0]).1.agents.map Agent.name).Nodup
      ∧ ((lookupAgent envBase defnA.name).isSome →
          addAgent envBase defnA = (envBase, [Event.printEv "Error: agent name duplicate."])
          ∧ (spawn_agent envBase defnA [0, 0, 0]).1.agents = envBase.agents
          ∧ (spawn_agent envBase defnA [0, 0, 0]).1.stateDict = envBase.stateDict
          ∧ (spawn_agent envBase defnA [0, 0, 0]).2 =
              [Event.printEv "Error: agent name duplicate."])) :=
  ⟨by decide, C9 envBase defnA [0, 0, 0] (by decide)⟩

/-- C5: the single-agent extraction takes reward and terminal from the last
sensor of the main agent whose identifier contains the "Task" marker
(reward = element 0, terminal = element 1 == 1), and returns None for both
when no sensor name contains the marker. -/
theorem C5 (env : Env) (m : String) (ss : List (String × Nat))
    (hm : env.mainAgent = some m) (hsd : lookupSD env m = ss) :
    (lastTaskSensor ss = none →
      (get_single_state env).2.reward = none ∧ (get_single_state env).2.terminal = none)
    ∧ (∀ p, lastTaskSensor ss = some p →
      (get_single_state env).2.reward = some ((readBuf env.heap p.2).getD 0 0)
      ∧ (get_single_state env).2.terminal = some (((readBuf env.heap p.2).getD 1 0) == 1)) := by
  have hss : lookupSD env (env.mainAgent.getD "") = ss := by rw [hm]; exact hsd
  constructor
  · intro hnone
    by_cases hc : env.copyState <;>
      simp [get_single_state, hss, hc, taskScan_eq_lastTask, hnone]
  · intro p hp
    by_cases hc : env.copyState <;>
      simp [get_single_state, hss, hc, taskScan_eq_lastTask, hp, taskVal]

/-- Witness for C5: on the concrete environment the last (only) Task sensor
is "TaskSensor" at address 1, holding buffer [7, 1]. -/
theorem C5_witness :
    envBase.mainAgent = some "a"
    ∧ lookupSD envBase "a" = [("LocationSensor", 0), ("TaskSensor", 1)]
    ∧ lastTaskSensor [("LocationSensor", 0), ("TaskSensor", 1)] = some ("TaskSensor", 1)
    ∧ ((get_single_state envBase).2.reward = some ((readBuf envBase.heap 1).getD 0 0)
      ∧ (get_single_state envBase).2.terminal = some (((readBuf envBase.heap 1).getD 1 0) == 1)) :=
  ⟨rfl, rfl, by decide,
   (C5 envBase "a" [("LocationSensor", 0), ("TaskSensor", 1)] rfl rfl).2 ("TaskSensor", 1) (by decide)⟩

/-- C4 counterexample: teleport performs its tick but the Python method has
no return statement, so no state is returned by the call at all — the
claimed "override's effect is visible in the state the call returns" is
false for teleport at this concrete input. -/
theorem C4_counterexample :
    ¬ ∃ sm : StateMap,
      (teleport engNil envBase "a" (some [1, 2, 3]) none).2.2 = Except.ok (some sm) := by
  rintro ⟨sm, h⟩
  have h2 : (Except.ok (none : Option StateMap) : Except HErr (Option StateMap)) =
      Except.ok (some sm) := h
  simp at h2

/-- C4 amended: teleport and set_state each enqueue the positional/kinematic
override and perform exactly one full tick before returning, and the
override is part of the command batch flushed to the engine for that very
tick; set_state returns the state aggregated after that tick, while teleport
discards it and returns None. -/
theorem C4_amended (eng : Engine) (env : Env) (agent_name : String) (ag : Agent)
    (loc rot : Option (List Rat)) (l r v av : List Rat)
    (hi : env.initialReset = true) (ha : lookupAgent env agent_name = some ag) :
    ((teleport eng env agent_name loc rot).2.1 =
        [Event.tickEv (env.commands ++ [Command.teleportCmd agent_name loc rot]) env.resetPtr]
      ∧ (teleport eng env agent_name loc rot).2.2 = Except.ok none)
    ∧ ((set_state eng env agent_name l r v av).2.1 =
        [Event.tickEv (env.commands ++ [Command.setStateCmd agent_name l r v av]) env.resetPtr]
      ∧ ∃ sm, (set_state eng env agent_name l r v av).2.2 = Except.ok sm) := by
  constructor
  · by_cases hc : env.copyState <;>
      simp [teleport, ha, enqueueCommand, tick, doTick, get_full_state, hi, hc]
  · by_cases hc : env.copyState <;>
      simp [set_state, ha, enqueueCommand, tick, doTick, get_full_state, hi, hc]

/-- Witness for C4 amended at the concrete initialized environment. -/
theorem C4_amended_witness :
    envBase.initialReset = true
    ∧ lookupAgent envBase "a" = some agentA
    ∧ (((teleport engNil envBase "a" (some [1, 2, 3]) none).2.1 =
        [Event.tickEv (envBase.commands ++ [Command.teleportCmd "a" (some [1, 2, 3]) none])
          envBase.resetPtr]
      ∧ (teleport engNil envBase "a" (some [1, 2, 3]) none).2.2 = Except.ok none)
    ∧ ((set_state engNil envBase "a" [1] [2] [3] [4]).2.1 =
        [Event.tickEv (envBase.commands ++ [Command.setStateCmd "a" [1] [2] [3] [4]])
          envBase.resetPtr]
      ∧ ∃ sm, (set_state engNil envBase "a" [1] [2] [3] [4]).2.2 = Except.ok sm)) :=
  ⟨rfl, rfl, C4_amended engNil envBase "a" agentA (some [1, 2, 3]) none [1] [2] [3] [4] rfl rfl⟩

/-- A successful tick preserves every field of the environment except the
heap, the flushed command queue (now empty) and the consumed ResetFlag (now
false); it performs exactly one handshake that flushes the queued commands
and lets the engine observe the current ResetFlag. -/
theorem tick_proj (eng : Engine) (env : Env) (h : env.initialReset = true) :
    (tick eng env).1.initialReset = true
    ∧ (tick eng env).1.agents = env.agents
    ∧ (tick eng env).1.stateDict = env.stateDict
    ∧ (tick eng env).1.numAgents = env.numAgents
    ∧ (tick eng env).1.mainAgent = env.mainAgent
    ∧ (tick eng env).1.copyState = env.copyState
    ∧ (tick eng env).1.preStartSteps = env.preStartSteps
    ∧ (tick eng env).1.commands = []
    ∧ (tick eng env).1.resetPtr = false
    ∧ (tick eng env).2.1 = [Event.tickEv env.commands env.resetPtr]
    ∧ (∃ sm, (tick eng env).2.2 = Except.ok sm) := by
  by_cases hc : env.copyState <;>
    simp [tick, doTick, get_full_state, h, hc]

/-- The settling-tick loop of reset: the registry fields are untouched, the
queue ends empty and the ResetFlag ends false (when at least one tick runs),
exactly n handshakes happen, and the first handshake flushes the current
queue and observes the current ResetFlag. -/
theorem resetTicks_spec (eng : Engine) :
    ∀ (n : Nat) (env : Env), env.initialReset = true →
    (resetTicks eng env n).1.initialReset = true
    ∧ (resetTicks eng env n).1.agents = env.agents
    ∧ (resetTicks eng env n).1.stateDict = env.stateDict
    ∧ (resetTicks eng env n).1.numAgents = env.numAgents
    ∧ (resetTicks eng env n).1.mainAgent = env.mainAgent
    ∧ (resetTicks eng env n).1.copyState = env.copyState
    ∧ (resetTicks eng env n).1.preStartSteps = env.preStartSteps
    ∧ (resetTicks eng env n).1.commands = (if n = 0 then env.commands else [])
    ∧ (resetTicks eng env n).1.resetPtr = (if n = 0 then env.resetPtr else false)
    ∧ (resetTicks eng env n).2.length = n
    ∧ (∀ e ∈ (resetTicks eng env n).2, e.isTick = true)
    ∧ (0 < n → (resetTicks eng env n).2.head? = some (Event.tickEv env.commands env.resetPtr)) := by
  intro n
  induction n with
  | zero =>
    intro env h
    simp [resetTicks, h]
  | succ k ih =>
    intro env h
    obtain ⟨t1, t2, t3, t4, t5, t6, t7, t8, t9, t10, t11⟩ := tick_proj eng env h
    obtain ⟨i1, i2, i3, i4, i5, i6, i7, i8, i9, i10, i11, i12⟩ := ih (tick eng env).1 t1
    simp only [resetTicks]
    refine ⟨i1, ?_, ?_, ?_, ?_, ?_, ?_, ?_, ?_, ?_, ?_, ?_⟩
    · rw [i2, t2]
    · rw [i3, t3]
    · rw [i4, t4]
    · rw [i5, t5]
    · rw [i6, t6]
    · rw [i7, t7]
    · rw [i8, t8]
      simp
    · rw [i9]
      cases k <;> simp [t9]
    · simp [i10, t10]
    · intro e he
      rw [List.mem_append] at he
      cases he with
      | inl h1 =>
        rw [t10] at h1
        simp at h1
        rw [h1]
        rfl
      | inr h2 => exact i11 e h2
    · intro hpos
      rw [t10]
      simp

/-- Re-applying an agent's own cached ticks-per-capture value leaves the
agents dict unchanged. -/
theorem updateAgent_tpc_self :
    ∀ (l : List Agent) (n : String) (ag : Agent),
    l.find? (fun a => a.name == n) = some ag →
    updateAgent l n (fun a => {a with ticksPerCapture := ag.ticksPerCapture}) = l := by
  intro l
  induction l with
  | nil => intro n ag h; simp [List.find?] at h
  | cons a rest ih =>
    intro n ag h
    cases hn : (a.name == n) with
    | true =>
      simp only [List.find?, hn] at h
      obtain rfl : a = ag := by injection h
      simp [updateAgent, hn]
    | false =>
      simp only [List.find?, hn] at h
      simp only [updateAgent, hn, Bool.false_eq_true, if_false]
      rw [ih n ag h]

/-- The capture-rate loop of reset: with every cached rate at least 1, it
only appends the RGBCameraRateCommands of the camera agents it visits,
prints nothing, and leaves every other field of the environment unchanged. -/
theorem reapply_spec :
    ∀ (names : List String) (env : Env),
    (∀ ag ∈ env.agents, 1 ≤ ag.ticksPerCapture) →
    reapplyCaptures env names = ({env with commands := env.commands ++ rgbCmds env.agents names}, []) := by
  intro names
  induction names with
  | nil =>
    intro env h
    show (env, []) = _
    have : ({env with commands := env.commands ++ rgbCmds env.agents []} : Env) = env := by
      simp [rgbCmds]
    rw [this]
  | cons n rest ih =>
    intro env h
    cases hf : lookupAgent env n with
    | none =>
      simp only [reapplyCaptures, hf]
      rw [ih env h]
      have : rgbCmds env.agents (n :: rest) = rgbCmds env.agents rest := by
        simp only [rgbCmds]
        rw [show env.agents.find? (fun ag => ag.name == n) = none from hf]
      rw [this]
    | some ag =>
      have hfind : env.agents.find? (fun ag => ag.name == n) = some ag := hf
      cases hcam : ag.hasCamera with
      | false =>
        simp only [reapplyCaptures, hf, hcam, Bool.false_eq_true, if_false]
        rw [ih env h]
        have : rgbCmds env.agents (n :: rest) = rgbCmds env.agents rest := by
          simp only [rgbCmds]
          rw [hfind]
          simp [hcam]
        rw [this]
      | true =>
        simp only [reapplyCaptures, hf, hcam, if_true]
        have hmem : ag ∈ env.agents := List.mem_of_find?_eq_some hfind
        have htpc : ¬ (ag.ticksPerCapture < 1) := not_lt.mpr (h ag hmem)
        have hstep : set_ticks_per_capture env n (PyNum.int ag.ticksPerCapture) =
            ({env with commands := env.commands ++ [Command.rgbCameraRate n ag.ticksPerCapture]},
             [], Except.ok ()) := by
          simp only [set_ticks_per_capture, htpc, if_false, hf]
          rw [updateAgent_tpc_self env.agents n ag hfind]
        rw [hstep]
        have hagents : ({env with commands := env.commands ++ [Command.rgbCameraRate n ag.ticksPerCapture]} : Env).agents = env.agents := rfl
        have ih2 := ih {env with commands := env.commands ++ [Command.rgbCameraRate n ag.ticksPerCapture]} (by rw [hagents]; exact h)
        rw [ih2]
        have : rgbCmds env.agents (n :: rest) =
            Command.rgbCameraRate n ag.ticksPerCapture :: rgbCmds env.agents rest := by
          simp only [rgbCmds]
          rw [hfind]
          simp [hcam]
        rw [this]
        simp

/-- Walking names that do not mention agent a skips over a in the dict. -/
theorem rgbCmds_skip :
    ∀ (names : List String) (a : Agent) (t : List Agent),
    a.name ∉ names →
    rgbCmds (a :: t) names = rgbCmds t names := by
  intro names
  induction names with
  | nil => intro a t _; rfl
  | cons n rest ih =>
    intro a t hnot
    have hne : (a.name == n) = false := by
      simp only [List.mem_cons] at hnot
      push_neg at hnot
      simp [hnot.1]
    simp only [rgbCmds, List.find?, hne]
    cases hf : t.find? (fun ag => ag.name == n) with
    | none =>
      exact ih a t (by intro hx; exact hnot (List.mem_cons_of_mem _ hx))
    | some ag =>
      have hrest := ih a t (by intro hx; exact hnot (List.mem_cons_of_mem _ hx))
      cases ag.hasCamera <;> simp [hrest]

/-- Walking the (duplicate-free) agent names over the agents dict enqueues
exactly one RGBCameraRateCommand per camera agent, in registry order. -/
theorem rgbCmds_names_self :
    ∀ (l : List Agent), (l.map Agent.name).Nodup →
    rgbCmds l (l.map Agent.name) =
      (l.filter (fun ag => ag.hasCamera)).map
        (fun ag => Command.rgbCameraRate ag.name ag.ticksPerCapture) := by
  intro l
  induction l with
  | nil => intro _; rfl
  | cons a t ih =>
    intro hn
    rw [List.map_cons, List.nodup_cons] at hn
    obtain ⟨hnot, hrest⟩ := hn
    have hself : (a.name == a.name) = true := by simp
    simp only [List.map_cons, rgbCmds, List.find?, hself]
    have hskip : rgbCmds (a :: t) (t.map Agent.name) = rgbCmds t (t.map Agent.name) :=
      rgbCmds_skip (t.map Agent.name) a t hnot
    cases hcam : a.hasCamera with
    | true =>
      rw [hskip, ih hrest]
      simp [List.filter_cons, hcam]
    | false =>
      rw [hskip, ih hrest]
      simp [List.filter_cons, hcam]

/-- get_full_state leaves the command queue in place. -/
theorem get_full_state_commands (env : Env) : (get_full_state env).1.commands = env.commands := by
  by_cases hc : env.copyState <;> simp [get_full_state, hc]

/-- get_full_state leaves the ResetFlag in place. -/
theorem get_full_state_resetPtr (env : Env) : (get_full_state env).1.resetPtr = env.resetPtr := by
  by_cases hc : env.copyState <;> simp [get_full_state, hc]

/-- get_full_state leaves the agents dict in place. -/
theorem get_full_state_agents (env : Env) : (get_full_state env).1.agents = env.agents := by
  by_cases hc : env.copyState <;> simp [get_full_state, hc]

/-- get_full_state leaves the initialized mark in place. -/
theorem get_full_state_initialReset (env : Env) :
    (get_full_state env).1.initialReset = env.initialReset := by
  by_cases hc : env.copyState <;> simp [get_full_state, hc]

/-- get_full_state leaves the state dict in place. -/
theorem get_full_state_stateDict (env : Env) :
    (get_full_state env).1.stateDict = env.stateDict := by
  by_cases hc : env.copyState <;> simp [get_full_state, hc]

/-- get_single_state leaves the state dict in place. -/
theorem get_single_state_stateDict (env : Env) :
    (get_single_state env).1.stateDict = env.stateDict := by
  by_cases hc : env.copyState <;> simp [get_single_state, hc]

/-- get_single_state leaves the command queue in place. -/
theorem get_single_state_commands (env : Env) :
    (get_single_state env).1.commands = env.commands := by
  by_cases hc : env.copyState <;> simp [get_single_state, hc]

/-- get_single_state leaves the ResetFlag in place. -/
theorem get_single_state_resetPtr (env : Env) :
    (get_single_state env).1.resetPtr = env.resetPtr := by
  by_cases hc : env.copyState <;> simp [get_single_state, hc]

/-- get_single_state leaves the agents dict in place. -/
theorem get_single_state_agents (env : Env) :
    (get_single_state env).1.agents = env.agents := by
  by_cases hc : env.copyState <;> simp [get_single_state, hc]

/-- get_single_state leaves the initialized mark in place. -/
theorem get_single_state_initialReset (env : Env) :
    (get_single_state env).1.initialReset = env.initialReset := by
  by_cases hc : env.copyState <;> simp [get_single_state, hc]

/-- The behaviour of reset on any environment whose registry is well formed
(duplicate-free names, cached capture rates at least 1): the returned queue
holds exactly the re-applied camera capture-rate commands, the ResetFlag ends
false, the registry survives, pre_start_steps + 1 handshakes happen, the
first of them flushes an empty queue while the engine observes the ResetFlag
raised, and the returned state is shaped by the construction-time agent
count. -/
theorem reset_spec (eng : Engine) (env : Env)
    (hn : (env.agents.map Agent.name).Nodup)
    (ht : ∀ ag ∈ env.agents, 1 ≤ ag.ticksPerCapture) :
    (reset eng env).1.commands =
      (env.agents.filter (fun ag => ag.hasCamera)).map
        (fun ag => Command.rgbCameraRate ag.name ag.ticksPerCapture)
    ∧ (reset eng env).1.resetPtr = false
    ∧ (reset eng env).1.agents = env.agents
    ∧ (reset eng env).1.initialReset = true
    ∧ (reset eng env).2.1.length = env.preStartSteps + 1
    ∧ (∀ e ∈ (reset eng env).2.1, e.isTick = true)
    ∧ (reset eng env).2.1.head? = some (Event.tickEv [] true)
    ∧ (env.numAgents = 1 → ∃ s, (reset eng env).2.2 = RetState.single s)
    ∧ (env.numAgents ≠ 1 → ∃ sm, (reset eng env).2.2 = RetState.full sm) := by
  obtain ⟨r1, r2, r3, r4, r5, r6, r7, r8, r9, r10, r11, r12⟩ :=
    resetTicks_spec eng (env.preStartSteps + 1)
      {env with initialReset := true, resetPtr := true, commands := []} rfl
  have hagents1 :
      (resetTicks eng {env with initialReset := true, resetPtr := true, commands := []}
        (env.preStartSteps + 1)).1.agents = env.agents := r2
  have hreap := reapply_spec
    ((resetTicks eng {env with initialReset := true, resetPtr := true, commands := []}
        (env.preStartSteps + 1)).1.agents.map Agent.name)
    (resetTicks eng {env with initialReset := true, resetPtr := true, commands := []}
        (env.preStartSteps + 1)).1
    (by rw [hagents1]; exact ht)
  have hnum : (resetTicks eng {env with initialReset := true, resetPtr := true, commands := []}
      (env.preStartSteps + 1)).1.numAgents = env.numAgents := r4
  have hrp : (resetTicks eng {env with initialReset := true, resetPtr := true, commands := []}
      (env.preStartSteps + 1)).1.resetPtr = false := by
    rw [r9]; simp
  have hinit : (resetTicks eng {env with initialReset := true, resetPtr := true, commands := []}
      (env.preStartSteps + 1)).1.initialReset = true := r1
  have hlen : (resetTicks eng {env with initialReset := true, resetPtr := true, commands := []}
      (env.preStartSteps + 1)).2.length = env.preStartSteps + 1 := r10
  have hhead : (resetTicks eng {env with initialReset := true, resetPtr := true, commands := []}
      (env.preStartSteps + 1)).2.head? = some (Event.tickEv [] true) := r12 (Nat.succ_pos _)
  simp only [reset]
  rw [hreap]
  rw [r8]
  simp only [Nat.succ_ne_zero, if_false]
  rw [hagents1]
  rw [rgbCmds_names_self env.agents hn]
  by_cases h1 : env.numAgents = 1
  · have hbeq : ((resetTicks eng {env with initialReset := true, resetPtr := true, commands := []}
        (env.preStartSteps + 1)).1.numAgents == 1) = true := by
      rw [hnum, h1]; rfl
    simp only [hbeq, if_true]
    refine ⟨?_, ?_, ?_, ?_, ?_, ?_, ?_, fun _ => ⟨_, rfl⟩, fun hne => absurd h1 hne⟩
    · rw [get_single_state_commands]
      simp
    · rw [get_single_state_resetPtr]
      simpa using hrp
    · rw [get_single_state_agents]
    · rw [get_single_state_initialReset]
      simpa using hinit
    · simpa using hlen
    · intro e he
      simp only [List.append_nil] at he
      exact r11 e he
    · simpa using hhead
  · have hbeq : ((resetTicks eng {env with initialReset := true, resetPtr := true, commands := []}
        (env.preStartSteps + 1)).1.numAgents == 1) = false := by
      rw [hnum]; simpa using h1
    simp only [hbeq, Bool.false_eq_true, if_false]
    refine ⟨?_, ?_, ?_, ?_, ?_, ?_, ?_, fun heq => absurd heq h1, fun _ => ⟨_, rfl⟩⟩
    · rw [get_full_state_commands]
      simp
    · rw [get_full_state_resetPtr]
      simpa using hrp
    · rw [get_full_state_agents]
    · rw [get_full_state_initialReset]
      simpa using hinit
    · simpa using hlen
    · intro e he
      simp only [List.append_nil] at he
      exact r11 e he
    · simpa using hhead

/-- C2 counterexample: on a concrete environment whose single agent has a
camera, the command queue is NOT empty immediately after reset() returns —
the capture-rate re-application loop runs after the settling ticks and
enqueues an RGBCameraRateCommand that stays queued until the next flush. -/
theorem C2_counterexample : (reset engNil envCam).1.commands ≠ [] := by
  have h : (reset engNil envCam).1.commands = [Command.rgbCameraRate "cam" 3] := by rfl
  rw [h]
  simp

/-- C2 amended: immediately after reset() returns, the command queue holds
exactly the re-applied ticks-per-capture commands of the camera-carrying
agents (so it is empty precisely when no agent has a camera), the engine
observes the ResetFlag true on the first settling tick (whose flush is the
cleared, empty queue), and the ResetFlag is false after reset() returns. -/
theorem C2_amended (eng : Engine) (env : Env)
    (hn : (env.agents.map Agent.name).Nodup)
    (ht : ∀ ag ∈ env.agents, 1 ≤ ag.ticksPerCapture) :
    (reset eng env).1.commands =
      (env.agents.filter (fun ag => ag.hasCamera)).map
        (fun ag => Command.rgbCameraRate ag.name ag.ticksPerCapture)
    ∧ (reset eng env).2.1.head? = some (Event.tickEv [] true)
    ∧ (reset eng env).1.resetPtr = false := by
  obtain ⟨s1, s2, _, _, _, _, s7, _, _⟩ := reset_spec eng env hn ht
  exact ⟨s1, s7, s2⟩

/-- Witness for C2 amended at the concrete camera environment: the queue
after reset holds exactly agent "cam"'s capture-rate command. -/
theorem C2_witness :
    (envCam.agents.map Agent.name).Nodup
    ∧ (∀ ag ∈ envCam.agents, 1 ≤ ag.ticksPerCapture)
    ∧ ((reset engNil envCam).1.commands =
        (envCam.agents.filter (fun ag => ag.hasCamera)).map
          (fun ag => Command.rgbCameraRate ag.name ag.ticksPerCapture)
      ∧ (reset engNil envCam).2.1.head? = some (Event.tickEv [] true)
      ∧ (reset engNil envCam).1.resetPtr = false) :=
  ⟨by decide, by decide, C2_amended engNil envCam (by decide) (by decide)⟩

/-- C3: reset() performs exactly pre_start_steps + 1 internal ticks (every
event of the call is an engine handshake), lets the engine observe the
raised ResetFlag over the cleared (empty) queue on the first of them,
re-applies the ticks-per-capture command for exactly the camera-carrying
agents, and returns the state shaped by the construction-time agent count:
the single-agent 4-tuple when num_agents is 1, the full per-agent mapping
otherwise. -/
theorem C3 (eng : Engine) (env : Env)
    (hn : (env.agents.map Agent.name).Nodup)
    (ht : ∀ ag ∈ env.agents, 1 ≤ ag.ticksPerCapture) :
    (reset eng env).2.1.length = env.preStartSteps + 1
    ∧ (∀ e ∈ (reset eng env).2.1, e.isTick = true)
    ∧ (reset eng env).2.1.head? = some (Event.tickEv [] true)
    ∧ (reset eng env).1.commands =
      (env.agents.filter (fun ag => ag.hasCamera)).map
        (fun ag => Command.rgbCameraRate ag.name ag.ticksPerCapture)
    ∧ (env.numAgents = 1 → ∃ s, (reset eng env).2.2 = RetState.single s)
    ∧ (env.numAgents ≠ 1 → ∃ sm, (reset eng env).2.2 = RetState.full sm) := by
  obtain ⟨s1, _, _, _, s5, s6, s7, s8, s9⟩ := reset_spec eng env hn ht
  exact ⟨s5, s6, s7, s1, s8, s9⟩

/-- Witness for C3 at the concrete camera environment (pre_start_steps = 0,
one agent, single-agent return shape). -/
theorem C3_witness :
    (envCam.agents.map Agent.name).Nodup
    ∧ (∀ ag ∈ envCam.agents, 1 ≤ ag.ticksPerCapture)
    ∧ ((reset engNil envCam).2.1.length = envCam.preStartSteps + 1
      ∧ (∀ e ∈ (reset engNil envCam).2.1, e.isTick = true)
      ∧ (reset engNil envCam).2.1.head? = some (Event.tickEv [] true)
      ∧ (reset engNil envCam).1.commands =
        (envCam.agents.filter (fun ag => ag.hasCamera)).map
          (fun ag => Command.rgbCameraRate ag.name ag.ticksPerCapture)
      ∧ (envCam.numAgents = 1 → ∃ s, (reset engNil envCam).2.2 = RetState.single s)
      ∧ (envCam.numAgents ≠ 1 → ∃ sm, (reset engNil envCam).2.2 = RetState.full sm)) :=
  ⟨by decide, by decide, C3 engNil envCam (by decide) (by decide)⟩

/-- The engine overwrites buffers in place: the heap keeps its length. -/
theorem engineWriteAll_length (eng : Engine) (cmds : List Command) (rf : Bool) :
    ∀ (addrs : List Nat) (heap : List Buffer),
    (engineWriteAll eng cmds rf addrs heap).length = heap.length := by
  intro addrs
  induction addrs with
  | nil => intro heap; rfl
  | cons a rest ih =>
    intro heap
    simp only [engineWriteAll]
    rw [ih]
    exact List.length_set heap a _

/-- Writing one cell leaves reads of other cells unchanged. -/
theorem readBuf_set_ne (heap : List Buffer) (i j : Nat) (v : Buffer) (h : i ≠ j) :
    readBuf (heap.set i v) j = readBuf heap j := by
  simp [readBuf, List.getD_eq_getElem?_getD, List.getElem?_set_ne h]

/-- The engine's in-place writes leave reads outside the written addresses
unchanged. -/
theorem readBuf_engineWriteAll (eng : Engine) (cmds : List Command) (rf : Bool) :
    ∀ (addrs : List Nat) (heap : List Buffer) (ad : Nat),
    (∀ x ∈ addrs, x ≠ ad) →
    readBuf (engineWriteAll eng cmds rf addrs heap) ad = readBuf heap ad := by
  intro addrs
  induction addrs with
  | nil => intro heap ad _; rfl
  | cons a rest ih =>
    intro heap ad h
    have ha : a ≠ ad := h a (List.mem_cons_self a rest)
    have hrest : ∀ x ∈ rest, x ≠ ad := fun x hx => h x (List.mem_cons_of_mem _ hx)
    simp only [engineWriteAll]
    rw [ih _ ad hrest, readBuf_set_ne _ _ _ _ ha]

/-- Appending fresh cells leaves reads of existing cells unchanged. -/
theorem readBuf_append (heap ext : List Buffer) (ad : Nat) (h : ad < heap.length) :
    readBuf (heap ++ ext) ad = readBuf heap ad := by
  simp [readBuf, List.getD_eq_getElem?_getD, List.getElem?_append_left h]

/-- The deep copy of one sensor dict only appends to the heap, and every
address of the copy is a fresh cell (at or beyond the old heap end, within
the new heap). -/
theorem copyBuffers_spec :
    ∀ (ss : List (String × Nat)) (heap : List Buffer),
    (∃ ext, (copyBuffers heap ss).1 = heap ++ ext)
    ∧ (∀ p ∈ (copyBuffers heap ss).2,
        heap.length ≤ p.2 ∧ p.2 < (copyBuffers heap ss).1.length) := by
  intro ss
  induction ss with
  | nil => intro heap; exact ⟨⟨[], by simp [copyBuffers]⟩, by simp [copyBuffers]⟩
  | cons p rest ih =>
    intro heap
    obtain ⟨⟨ext, hext⟩, hbounds⟩ := ih (heap ++ [heap.getD p.2 []])
    constructor
    · refine ⟨[heap.getD p.2 []] ++ ext, ?_⟩
      show (copyBuffers (heap ++ [heap.getD p.2 []]) rest).1 = _
      rw [hext]
      simp
    · intro q hq
      simp only [copyBuffers, List.mem_cons] at hq
      cases hq with
      | inl h1 =>
        subst h1
        show heap.length ≤ heap.length ∧
          heap.length < (copyBuffers (heap ++ [heap.getD p.2 []]) rest).1.length
        refine ⟨le_refl _, ?_⟩
        rw [hext]
        simp only [List.length_append, List.length_singleton]
        omega
      | inr h2 =>
        have hb := hbounds q h2
        refine ⟨le_trans ?_ hb.1, hb.2⟩
        simp

/-- The deep copy of the full state dict only appends to the heap, and every
address in the copy is a fresh cell. -/
theorem copyStateDict_spec :
    ∀ (sm : StateMap) (heap : List Buffer),
    (∃ ext, (copyStateDict heap sm).1 = heap ++ ext)
    ∧ (∀ ad ∈ smAddrs (copyStateDict heap sm).2,
        heap.length ≤ ad ∧ ad < (copyStateDict heap sm).1.length) := by
  intro sm
  induction sm with
  | nil => intro heap; exact ⟨⟨[], by simp [copyStateDict]⟩, by simp [copyStateDict, smAddrs]⟩
  | cons p rest ih =>
    intro heap
    obtain ⟨⟨ext1, hext1⟩, hb1⟩ := copyBuffers_spec p.2 heap
    obtain ⟨⟨ext2, hext2⟩, hb2⟩ := ih (copyBuffers heap p.2).1
    constructor
    · refine ⟨ext1 ++ ext2, ?_⟩
      show (copyStateDict (copyBuffers heap p.2).1 rest).1 = _
      rw [hext2, hext1]
      simp
    · intro ad had
      simp only [copyStateDict, smAddrs, List.map_cons, List.flatten_cons, List.mem_append] at had
      cases had with
      | inl h1 =>
        simp only [sensorsAddrs, List.mem_map] at h1
        obtain ⟨q, hq, rfl⟩ := h1
        have hb := hb1 q hq
        refine ⟨hb.1, lt_of_lt_of_le hb.2 ?_⟩
        show (copyBuffers heap p.2).1.length ≤ (copyStateDict (copyBuffers heap p.2).1 rest).1.length
        rw [hext2]
        simp
      | inr h2 =>
        have hb := hb2 ad (by simpa [smAddrs] using h2)
        refine ⟨le_trans ?_ hb.1, hb.2⟩
        rw [hext1]
        simp

/-- Both state-aggregation modes only ever append to the heap. -/
theorem get_full_state_heap (env : Env) :
    ∃ ext, (get_full_state env).1.heap = env.heap ++ ext := by
  by_cases hc : env.copyState
  · simp only [get_full_state, hc, if_true]
    exact (copyStateDict_spec env.stateDict env.heap).1
  · exact ⟨[], by simp [get_full_state, hc]⟩

/-- Both single-state modes only ever append to the heap. -/
theorem get_single_state_heap (env : Env) :
    ∃ ext, (get_single_state env).1.heap = env.heap ++ ext := by
  by_cases hc : env.copyState
  · simp only [get_single_state, hc, if_true]
    exact (copyBuffers_spec (lookupSD env (env.mainAgent.getD "")) env.heap).1
  · exact ⟨[], by simp [get_single_state, hc]⟩

/-- In copy mode, every address of the returned full state is a freshly
allocated cell of the current heap. -/
theorem get_full_state_bounds (env : Env) (hc : env.copyState = true) :
    ∀ ad ∈ smAddrs (get_full_state env).2,
      env.heap.length ≤ ad ∧ ad < (get_full_state env).1.heap.length := by
  simp only [get_full_state, hc, if_true]
  exact (copyStateDict_spec env.stateDict env.heap).2

/-- In copy mode, every address of the returned single state is a freshly
allocated cell of the current heap. -/
theorem get_single_state_bounds (env : Env) (hc : env.copyState = true) :
    ∀ ad ∈ sensorsAddrs (get_single_state env).2.state,
      env.heap.length ≤ ad ∧ ad < (get_single_state env).1.heap.length := by
  simp only [get_single_state, hc, if_true]
  intro ad had
  simp only [sensorsAddrs, List.mem_map] at had
  obtain ⟨q, hq, rfl⟩ := had
  exact (copyBuffers_spec (lookupSD env (env.mainAgent.getD "")) env.heap).2 q hq

/-- The heap after a successful tick is the engine's in-place overwrite of
the shared cells followed by (possibly empty) fresh copy cells. -/
theorem tick_heap (eng : Engine) (env : Env) (h : env.initialReset = true) :
    ∃ ext, (tick eng env).1.heap =
      engineWriteAll eng env.commands env.resetPtr (stateDictAddrs env) env.heap ++ ext := by
  have hne : ¬ (env.initialReset = false) := by rw [h]; simp
  simp only [tick, if_neg hne]
  obtain ⟨ext, hx⟩ := get_full_state_heap (doTick eng env).1
  exact ⟨ext, by rw [hx]; rfl⟩

/-- The heap after a successful step has the same shape as after a tick
(recording the pending action touches no buffer). -/
theorem step_heap (eng : Engine) (env : Env) (a : Action) (h : env.initialReset = true) :
    ∃ ext, (step eng env a).1.heap =
      engineWriteAll eng env.commands env.resetPtr (stateDictAddrs env) env.heap ++ ext := by
  have hne : ¬ (env.initialReset = false) := by rw [h]; simp
  cases hm : env.mainAgent with
  | none =>
    simp only [step, if_neg hne, hm]
    obtain ⟨ext, hx⟩ := get_full_state_heap (doTick eng env).1
    exact ⟨ext, by rw [hx]; rfl⟩
  | some m =>
    simp only [step, if_neg hne, hm]
    obtain ⟨ext, hx⟩ := get_single_state_heap (doTick eng (agentAct env m a)).1
    exact ⟨ext, by rw [hx]; rfl⟩

/-- A successful copy-mode tick returns a state all of whose addresses are
fresh cells beyond the pre-tick heap, within the post-tick heap. -/
theorem tick_firstOp (eng : Engine) (env : Env)
    (h : env.initialReset = true) (hc : env.copyState = true) :
    ∃ sm, (tick eng env).2.2 = Except.ok sm
      ∧ (∀ ad ∈ smAddrs sm, env.heap.length ≤ ad ∧ ad < (tick eng env).1.heap.length) := by
  have hne : ¬ (env.initialReset = false) := by rw [h]; simp
  simp only [tick, if_neg hne]
  have hcd : (doTick eng env).1.copyState = true := hc
  refine ⟨(get_full_state (doTick eng env).1).2, rfl, ?_⟩
  intro ad had
  have hb := get_full_state_bounds (doTick eng env).1 hcd ad had
  have hlen : (doTick eng env).1.heap.length = env.heap.length :=
    engineWriteAll_length eng env.commands env.resetPtr (stateDictAddrs env) env.heap
  exact ⟨hlen ▸ hb.1, hb.2⟩

/-- A successful copy-mode step returns a state structure all of whose
addresses are fresh cells beyond the pre-step heap. -/
theorem step_firstOp (eng : Engine) (env : Env) (a : Action)
    (h : env.initialReset = true) (hc : env.copyState = true) :
    ∃ r, (step eng env a).2.2 = Except.ok r
      ∧ (∀ ad ∈ retAddrs r, env.heap.length ≤ ad ∧ ad < (step eng env a).1.heap.length) := by
  have hne : ¬ (env.initialReset = false) := by rw [h]; simp
  cases hm : env.mainAgent with
  | none =>
    simp only [step, if_neg hne, hm]
    have hcd : (doTick eng env).1.copyState = true := hc
    refine ⟨RetState.full (get_full_state (doTick eng env).1).2, rfl, ?_⟩
    intro ad had
    have hb := get_full_state_bounds (doTick eng env).1 hcd ad had
    have hlen : (doTick eng env).1.heap.length = env.heap.length :=
      engineWriteAll_length eng env.commands env.resetPtr (stateDictAddrs env) env.heap
    exact ⟨hlen ▸ hb.1, hb.2⟩
  | some m =>
    simp only [step, if_neg hne, hm]
    have hcd : (doTick eng (agentAct env m a)).1.copyState = true := hc
    refine ⟨RetState.single (get_single_state (doTick eng (agentAct env m a)).1).2, rfl, ?_⟩
    intro ad had
    have hb := get_single_state_bounds (doTick eng (agentAct env m a)).1 hcd ad had
    have hlen : (doTick eng (agentAct env m a)).1.heap.length = env.heap.length :=
      engineWriteAll_length eng env.commands env.resetPtr (stateDictAddrs env) env.heap
    exact ⟨hlen ▸ hb.1, hb.2⟩

/-- Reading a sensor map whose addresses all lie at or beyond B and inside
the heap is unaffected by engine writes below B plus appended cells. -/
theorem readSensors_stable (eng : Engine) (cmds : List Command) (rf : Bool)
    (addrs : List Nat) (heap ext : List Buffer) (ss : List (String × Nat)) (B : Nat)
    (hwr : ∀ x ∈ addrs, x < B)
    (hs : ∀ ad ∈ sensorsAddrs ss, B ≤ ad ∧ ad < heap.length) :
    readSensors (engineWriteAll eng cmds rf addrs heap ++ ext) ss = readSensors heap ss := by
  unfold readSensors
  apply List.map_congr_left
  intro p hp
  have had := hs p.2 (List.mem_map_of_mem Prod.snd hp)
  have h1 : readBuf (engineWriteAll eng cmds rf addrs heap ++ ext) p.2 =
      readBuf (engineWriteAll eng cmds rf addrs heap) p.2 := by
    apply readBuf_append
    rw [engineWriteAll_length]
    exact had.2
  have h2 : readBuf (engineWriteAll eng cmds rf addrs heap) p.2 = readBuf heap p.2 :=
    readBuf_engineWriteAll eng cmds rf addrs heap p.2
      (fun x hx => Nat.ne_of_lt (lt_of_lt_of_le (hwr x hx) had.1))
  rw [h1, h2]

/-- Reading a full state map of fresh addresses is unaffected by a
subsequent engine write plus appended cells. -/
theorem readStateMap_stable (eng : Engine) (cmds : List Command) (rf : Bool)
    (addrs : List Nat) (heap ext : List Buffer) (sm : StateMap) (B : Nat)
    (hwr : ∀ x ∈ addrs, x < B)
    (hs : ∀ ad ∈ smAddrs sm, B ≤ ad ∧ ad < heap.length) :
    readStateMap (engineWriteAll eng cmds rf addrs heap ++ ext) sm = readStateMap heap sm := by
  unfold readStateMap
  apply List.map_congr_left
  intro q hq
  have : readSensors (engineWriteAll eng cmds rf addrs heap ++ ext) q.2 = readSensors heap q.2 := by
    apply readSensors_stable eng cmds rf addrs heap ext q.2 B hwr
    intro ad had
    apply hs
    simp only [smAddrs, List.mem_flatten]
    exact ⟨sensorsAddrs q.2, List.mem_map_of_mem _ hq, had⟩
  rw [this]

/-- Reading a returned state structure of fresh addresses is unaffected by a
subsequent engine write plus appended cells. -/
theorem readRet_stable (eng : Engine) (cmds : List Command) (rf : Bool)
    (addrs : List Nat) (heap ext : List Buffer) (r : RetState) (B : Nat)
    (hwr : ∀ x ∈ addrs, x < B)
    (hs : ∀ ad ∈ retAddrs r, B ≤ ad ∧ ad < heap.length) :
    readRet (engineWriteAll eng cmds rf addrs heap ++ ext) r = readRet heap r := by
  cases r with
  | single s =>
    simp only [readRet]
    rw [readSensors_stable eng cmds rf addrs heap ext s.state B hwr hs]
  | full sm =>
    simp only [readRet]
    rw [readStateMap_stable eng cmds rf addrs heap ext sm B hwr hs]

/-- C6: in copy mode (given well-formed shared addresses), the dereferenced
contents of a state structure returned by tick() or step() are unchanged by
the following tick() or step(): the copy owns fresh cells that the next
engine write never touches. -/
theorem C6 (eng eng2 eng3 : Engine) (env : Env) (a a2 : Action)
    (hi : env.initialReset = true) (hc : env.copyState = true)
    (hw : ∀ ad ∈ stateDictAddrs env, ad < env.heap.length) :
    ((tick eng env).2.2.toOption.map (readStateMap ((tick eng2 (tick eng env).1).1.heap))
      = (tick eng env).2.2.toOption.map (readStateMap ((tick eng env).1.heap)))
    ∧ ((tick eng env).2.2.toOption.map (readStateMap ((step eng3 (tick eng env).1 a2).1.heap))
      = (tick eng env).2.2.toOption.map (readStateMap ((tick eng env).1.heap)))
    ∧ ((step eng env a).2.2.toOption.map (readRet ((tick eng2 (step eng env a).1).1.heap))
      = (step eng env a).2.2.toOption.map (readRet ((step eng env a).1.heap)))
    ∧ ((step eng env a).2.2.toOption.map (readRet ((step eng3 (step eng env a).1 a2).1.heap))
      = (step eng env a).2.2.toOption.map (readRet ((step eng env a).1.heap))) := by
  obtain ⟨t1, _, t3, _, _, _, _, _, _, _, _⟩ := tick_proj eng env hi
  obtain ⟨sm, hok, hb⟩ := tick_firstOp eng env hi hc
  have hsd1 : stateDictAddrs (tick eng env).1 = stateDictAddrs env := by
    simp only [stateDictAddrs]
    rw [t3]
  have hwr1 : ∀ x ∈ stateDictAddrs (tick eng env).1, x < env.heap.length := by
    rw [hsd1]; exact hw
  obtain ⟨r, hokS, hbS⟩ := step_firstOp eng env a hi hc
  have hs1 : (step eng env a).1.initialReset = true := by
    have hne : ¬ (env.initialReset = false) := by rw [hi]; simp
    cases hm : env.mainAgent with
    | none =>
      simp only [step, if_neg hne, hm]
      rw [get_full_state_initialReset]
      exact hi
    | some m =>
      simp only [step, if_neg hne, hm]
      rw [get_single_state_initialReset]
      exact hi
  have hsdS : stateDictAddrs (step eng env a).1 = stateDictAddrs env := by
    have hne : ¬ (env.initialReset = false) := by rw [hi]; simp
    simp only [stateDictAddrs]
    cases hm : env.mainAgent with
    | none =>
      simp only [step, if_neg hne, hm]
      rw [get_full_state_stateDict]
      rfl
    | some m =>
      simp only [step, if_neg hne, hm]
      rw [get_single_state_stateDict]
      rfl
  have hwrS : ∀ x ∈ stateDictAddrs (step eng env a).1, x < env.heap.length := by
    rw [hsdS]; exact hw
  refine ⟨?_, ?_, ?_, ?_⟩
  · rw [hok]
    obtain ⟨ext2, hext2⟩ := tick_heap eng2 (tick eng env).1 t1
    rw [hext2]
    simp only [Except.toOption, Option.map]
    rw [readStateMap_stable eng2 (tick eng env).1.commands (tick eng env).1.resetPtr
      (stateDictAddrs (tick eng env).1) (tick eng env).1.heap ext2 sm env.heap.length hwr1 hb]
  · rw [hok]
    obtain ⟨ext2, hext2⟩ := step_heap eng3 (tick eng env).1 a2 t1
    rw [hext2]
    simp only [Except.toOption, Option.map]
    rw [readStateMap_stable eng3 (tick eng env).1.commands (tick eng env).1.resetPtr
      (stateDictAddrs (tick eng env).1) (tick eng env).1.heap ext2 sm env.heap.length hwr1 hb]
  · rw [hokS]
    obtain ⟨ext2, hext2⟩ := tick_heap eng2 (step eng env a).1 hs1
    rw [hext2]
    simp only [Except.toOption, Option.map]
    rw [readRet_stable eng2 (step eng env a).1.commands (step eng env a).1.resetPtr
      (stateDictAddrs (step eng env a).1) (step eng env a).1.heap ext2 r env.heap.length hwrS hbS]
  · rw [hokS]
    obtain ⟨ext2, hext2⟩ := step_heap eng3 (step eng env a).1 a2 hs1
    rw [hext2]
    simp only [Except.toOption, Option.map]
    rw [readRet_stable eng3 (step eng env a).1.commands (step eng env a).1.resetPtr
      (stateDictAddrs (step eng env a).1) (step eng env a).1.heap ext2 r env.heap.length hwrS hbS]

/-- Witness for C6 at the concrete copy-mode environment with two engine
behaviours that do overwrite the shared buffers. -/
theorem C6_witness :
    envBase.initialReset = true
    ∧ envBase.copyState = true
    ∧ (∀ ad ∈ stateDictAddrs envBase, ad < envBase.heap.length)
    ∧ (((tick engBump envBase).2.2.toOption.map
          (readStateMap ((tick engBump (tick engBump envBase).1).1.heap))
        = (tick engBump envBase).2.2.toOption.map (readStateMap ((tick engBump envBase).1.heap)))
      ∧ ((tick engBump envBase).2.2.toOption.map
          (readStateMap ((step engNil (tick engBump envBase).1 [2]).1.heap))
        = (tick engBump envBase).2.2.toOption.map (readStateMap ((tick engBump envBase).1.heap)))
      ∧ ((step engBump envBase [1]).2.2.toOption.map
          (readRet ((tick engBump (step engBump envBase [1]).1).1.heap))
        = (step engBump envBase [1]).2.2.toOption.map (readRet ((step engBump envBase [1]).1.heap)))
      ∧ ((step engBump envBase [1]).2.2.toOption.map
          (readRet ((step engNil (step engBump envBase [1]).1 [2]).1.heap))
        = (step engBump envBase [1]).2.2.toOption.map (readRet ((step engBump envBase [1]).1.heap)))) :=
  ⟨rfl, rfl, by decide, C6 engBump engBump engNil envBase [1] [2] rfl rfl (by decide)⟩

end Holo
